import Mathlib

/-!
Verification development for the `myrepo` package-repository tool.

The Python source under `src/myrepo` is shallowly embedded below.  Python
(byte)strings are modelled as `List Char` (all data exercised by the claims is
ASCII, where byte operations and character operations coincide); Python `None`
is `Option.none`; Python exceptions are explicit error values.  The
process-wide `storage` mapping (module `myrepo.environment.storage`, whose
definition is not under `src/`) and all OS / network effects (web search,
`pkgfile`, `pacman`, mirror fetches, `glob`, process exit codes) are passed in
as explicit environment records, so every definition is executable.
-/

/-- Python strings / bytes are modelled as lists of characters. -/
abbrev Str := List Char

/-- Python lexicographic string comparison `a < b` (by code point). -/
def lexLt : Str → Str → Bool
  | [], [] => false
  | [], _ :: _ => true
  | _ :: _, [] => false
  | a :: as, b :: bs => if a < b then true else if b < a then false else lexLt as bs

/-- Index of the first occurrence of `key` in `l` (Python `bytes.find` /
substring containment), `Option.none` when absent. -/
def findSub (key : Str) : Str → Option Nat
  | [] => if key.isEmpty then some 0 else Option.none
  | c :: rest =>
    if key.isPrefixOf (c :: rest) then some 0
    else (findSub key rest).map (· + 1)

/-- Python `sub in s`. -/
def pyContains (s sub : Str) : Bool := (findSub sub s).isSome

/-- Fuelled worker for `splitOnL`; `fuel = l.length` always suffices because a
nonempty separator consumes at least one character per round. -/
def splitOnGo (sep : Str) : Nat → Str → List Str
  | 0, l => [l]
  | fuel + 1, l =>
    match findSub sep l with
    | Option.none => [l]
    | some i => l.take i :: splitOnGo sep fuel (l.drop (i + sep.length))

/-- Python `s.split(sep)` for a nonempty separator (and `[s]` for an empty
one, matching the `'.' in version_string` guard usage in the source). -/
def splitOnL (sep l : Str) : List Str :=
  if sep.isEmpty then [l] else splitOnGo sep l.length l

/-- Python `s.split(sep, 1)`: split at the first occurrence only. -/
def split1 (sep l : Str) : Str × Str :=
  match splitOnL sep l with
  | [] => (l, [])
  | [x] => (x, [])
  | x :: xs => (x, List.intercalate sep xs)

/-- Python `s.rsplit(sep, 1)`: split at the last occurrence only. -/
def rsplit1 (sep l : Str) : Str × Str :=
  match (splitOnL sep l).reverse with
  | [] => (l, [])
  | [x] => (x, [])
  | last :: revInit => (List.intercalate sep revInit.reverse, last)

/-- Python `s.replace(pat, repl)` (all non-overlapping occurrences, left to
right). -/
def replaceL (pat repl l : Str) : Str :=
  List.intercalate repl (splitOnL pat l)

/-- `os.path.join(dir, file)` for the shapes used by `locate_binary`. -/
def pyPathJoin (dir file : Str) : Str :=
  if ("/").toList.isPrefixOf file then file
  else if dir = [] then file
  else if dir.getLast? = some '/' then dir ++ file
  else dir ++ ("/").toList ++ file

/-- Embedding of `VersionDef` (src/myrepo/tooling/packages.py lines 103-124).
The components are the raw strings the Python constructor stores; absent
minor/patch components are `Option.none` (the class-attribute default). -/
structure VersionDef where
  raw : Str
  major : Str
  minor : Option Str
  patch : Option Str
deriving DecidableEq, Repr

/-- `VersionDef.__init__` (lines 108-124).  Note the source's line 117 writes
to the misspelled attribute `verions`, so `self.versions` keeps the hyphenated
last component; the hyphen-derived patch (line 118) survives only when the
dotted form has fewer than three components (lines 123-124 overwrite it). -/
def VersionDef.make (s : Str) : VersionDef :=
  let versions := splitOnL ("." ).toList s
  let hyphenPatch : Option Str :=
    match versions.getLast? with
    | some lastc =>
      if pyContains lastc ("-").toList then some (split1 ("-").toList lastc).2
      else Option.none
    | Option.none => Option.none
  { raw := s
    major := versions.headD []
    minor := versions.get? 1
    patch := match versions.get? 2 with
             | some p => some p
             | Option.none => hyphenPatch }

/-- Python truthiness of `a and b and a > b` on optional component strings
(`None` and the empty string are falsy). -/
def strTruthyGt (a b : Option Str) : Bool :=
  match a, b with
  | some x, some y => decide (x ≠ []) && decide (y ≠ []) && lexLt y x
  | _, _ => false

/-- `VersionDef.__lt__` (lines 134-141).  The Python method only ever
executes `return False` (or falls off the end, returning `None`); the result
is therefore `Option Bool` with `Option.none` for the fall-through. -/
def VersionDef.lt (a b : VersionDef) : Option Bool :=
  if lexLt b.major a.major then some false
  else if strTruthyGt a.minor b.minor then some false
  else if strTruthyGt a.patch b.patch then some false
  else Option.none

/-- `VersionDef.__eq__` (lines 126-132): component-wise equality, absent
compared as absent. -/
def VersionDef.eq (a b : VersionDef) : Bool :=
  decide (b.major = a.major) && decide (b.minor = a.minor) &&
    decide (b.patch = a.patch)

/-- Python truthiness of the value returned by `__lt__` inside a boolean
context (`None` and `False` are both falsy). -/
def pyTruthy : Option Bool → Bool
  | some true => true
  | _ => false



/-- The version-constraint forms recognised by `sync_packages`
(src/myrepo/tooling/packages.py lines 150-178). -/
inductive VersionConstraint
  | noConstraint
  | gt (v : Str)
  | geq (v : Str)
  | lt (v : Str)
  | leq (v : Str)
  | range (lo hi : Str)
  | exact (v : Str)
deriving DecidableEq, Repr

/-- Constraint parsing in `sync_packages` (lines 150-178): operators are
tested in the order `>=`, `>`, `<=`, `<`, `=` by substring containment, and
the spec string is `rsplit` once on the matched operator; a `=` operand
containing `-` is split once into a range. -/
def parseSpec (raw : Str) : Str × VersionConstraint :=
  if pyContains raw (">=").toList then
    let p := rsplit1 (">=").toList raw
    (p.1, .geq p.2)
  else if pyContains raw (">").toList then
    let p := rsplit1 (">").toList raw
    (p.1, .gt p.2)
  else if pyContains raw ("<=").toList then
    let p := rsplit1 ("<=").toList raw
    (p.1, .leq p.2)
  else if pyContains raw ("<").toList then
    let p := rsplit1 ("<").toList raw
    (p.1, .lt p.2)
  else if pyContains raw ("=").toList then
    let p := rsplit1 ("=").toList raw
    if pyContains p.2 ("-").toList then
      let mm := split1 ("-").toList p.2
      (p.1, .range mm.1 mm.2)
    else (p.1, .exact p.2)
  else (raw, .noConstraint)

/-- The raw `target_version` string as it stands at line 236 of the source
(for a range, the un-split `minimum-maximum` operand). -/
def constraintRaw : VersionConstraint → Str
  | .noConstraint => []
  | .gt v => v
  | .geq v => v
  | .lt v => v
  | .leq v => v
  | .range lo hi => lo ++ ("-").toList ++ hi
  | .exact v => v

/-- The constraint check of `sync_packages` (lines 236-247), embedded with
Python's truthiness rules: `version < target_version` invokes
`VersionDef.__lt__`, whose `None`/`False` results are both falsy, and
`version > target_version` invokes the reflected `__lt__`.  Line 237
rebuilds `target_version = VersionDef(target_version)` from the raw operand
string, so a range compares against `VersionDef("lo-hi")`, not its bounds.
Returns the offending message on a (hard `PackageError`) violation. -/
def checkConstraint (c : VersionConstraint) (pkgver : Str) : Option Str :=
  match c with
  | .noConstraint => Option.none
  | _ =>
    -- line 236: `if target_version:` — an empty operand string is falsy
    if constraintRaw c = [] then Option.none
    else
      let version := VersionDef.make pkgver
      let target := VersionDef.make (constraintRaw c)
      let isGt := match c with | .gt _ => true | _ => false
      let isGeq := match c with | .geq _ => true | .range _ _ => true | _ => false
      let isLt := match c with | .lt _ => true | _ => false
      let isLeq := match c with | .leq _ => true | .range _ _ => true | _ => false
      let isExact := match c with | .exact _ => true | _ => false
      if isGt && pyTruthy (VersionDef.lt version target) then
        some (("requires version newer than ").toList ++ constraintRaw c)
      else if isGeq && pyTruthy (VersionDef.lt version target) &&
          !(VersionDef.eq version target) then
        some (("requires version newer or equal to ").toList ++ constraintRaw c)
      else if isLt && pyTruthy (VersionDef.lt target version) then
        some (("requires version older than ").toList ++ constraintRaw c)
      else if isLeq && pyTruthy (VersionDef.lt target version) &&
          !(VersionDef.eq version target) then
        some (("requires version older or equal to ").toList ++ constraintRaw c)
      else if isExact && !(VersionDef.eq version target) then
        some (("requires version equal to ").toList ++ constraintRaw c)
      else Option.none

/-- The program's error taxonomy.  `RequirementError` and `SysCallError` are
defined in src/myrepo/exceptions/__init__.py.  Modelled from the spec:
`PackageError` and `RepositoryError` are imported and raised throughout
`src/` but their class definitions are not under `src/`; their variants and
carried data follow the spec's section 7 taxonomy (`SysCallError` carries the
exit code and an output excerpt inside its formatted message; the structured
fields here stand for the pieces interpolated into that message).  The
`IsGroup` control signal is `class IsGroup` (packages.py line 55).  The
remaining constructors are operational outcomes of the shallow embedding
(fuel exhaustion, Python `NameError`/`AttributeError`/`IndexError` crashes
and propagating `urllib` errors).  `nameError` in particular models every
unbound-name crash the source can hit: the stale/unbound `package_info` at
packages.py line 235, and the name `RepositoryError` at lines 90 and 296 —
packages.py line 11 imports only `PackageError` and `SysCallError`, so both
`raise RepositoryError(...)` statements raise `NameError` at runtime under
any completion of the missing exceptions module. -/
inductive AppError
  | requirementError (binaryName : Str)
  | sysCallError (cmd : Str) (exitCode : Option Int) (excerpt : Str)
  | packageError (msg : Str)
  | repositoryError (databasePath : Str) (exitCode : Option Int) (excerpt : Str)
  | isGroupSignal (msg : Str)
  | fuelOut
  | nameError
  | attributeError
  | indexError
  | urlError (url : Str)
deriving DecidableEq, Repr

/-- `PackageSearchResult` fields consumed by `sync_packages` (the model class
itself lives outside `src/`; the fields are those the spec's section 6 search
API returns and the source reads: `pkgname`, `pkgver`, `repo`, `filename`,
`depends`). -/
structure PackageInfo where
  pkgname : Str
  pkgver : Str
  repo : Str
  filename : Str
  depends : List Str
deriving DecidableEq, Repr

/-- Outcome of the remote search (`package_search`, packages.py lines 38-53)
for one name: a result whose `pkgname` matches, an empty `results` array, or
a nonempty array without a matching `pkgname`. -/
inductive SearchOutcome
  | found (info : PackageInfo)
  | empty
  | mismatch
deriving DecidableEq, Repr

/-- `find_package` error modes (packages.py lines 58-76). -/
inductive FindErr
  | isGroup
  | notFound
deriving DecidableEq, Repr

/-- The environment of one resolution run: the remote search and group
endpoints, the `pkgfile` / `pacman -Ss` fallback tools (`Option.none` models
the `SysCommand` raising `SysCallError`, i.e. the tool exiting non-zero;
lines are pre-parsed into `(repository, package)` pairs), the two
repository-flag lookups (`getattr` on `storage['repositories']` and on
`storage['arguments']`; `Option.none` models a missing attribute, i.e. an
`AttributeError`), the mirror list, and the download-side effects of
`download_package` (exit code of the `repo-add` initialisation and success
of each `urlopen`). -/
structure SyncEnv where
  search : Str → SearchOutcome
  isGroup : Str → Bool
  pkgfile : Str → Option (List (Str × Str))
  pacman : Str → Option (List (Str × Str))
  repositories : Str → Option Bool
  argRepoFlag : Str → Option Bool
  mirrors : List Str
  arch : Str
  path : Str
  skipSig : Bool
  repoAddInitExit : Str → Int
  fetch : Str → Bool

/-- The observable state threaded through one resolution run: the shared
`skip` list (mutated in place in the source), the accumulated
`repositories_to_update` (the source merges the per-call local lists by set
union on return; the threaded accumulator here has the same members), and
three event logs of the run: names passed to `find_package`, package names
whose artifact was fetched, and mirror URLs attempted. -/
structure SyncState where
  skip : List Str
  reposToUpdate : List Str
  searches : List Str
  downloads : List Str
  mirrorAttempts : List Str
deriving DecidableEq, Repr

/-- The state of a fresh top-level `sync_packages` call (`skip = []`). -/
def initState : SyncState := ⟨[], [], [], [], []⟩

/-- Record one `find_package` invocation (one remote search) for `name`. -/
def recordSearch (st : SyncState) (name : Str) : SyncState :=
  { st with searches := st.searches ++ [name] }

/-- `find_package` (packages.py lines 58-76): a matching result is returned;
an empty result set triggers the group probe (`IsGroup` when positive); both
the empty-and-not-a-group case (line 68) and the no-matching-`pkgname` case
(line 76) raise `PackageError`. -/
def find_package (env : SyncEnv) (name : Str) : Except FindErr PackageInfo :=
  match env.search name with
  | .found info => .ok info
  | .empty => if env.isGroup name then .error .isGroup else .error .notFound
  | .mismatch => .error .notFound

/-- The scheme of a URL as `urllib.parse.urlparse(url).scheme` computes it
for the `scheme://...` shapes exercised here. -/
def urlScheme (url : Str) : Str :=
  match splitOnL ("://").toList url with
  | s :: _ :: _ => s
  | _ => []

/-- `download_package` (packages.py lines 78-101).  A URL whose scheme is not
`http`/`https` raises `PackageError` (line 101).  Inside the good-scheme
branch: the `repo-add <db> __init__` stub initialisation raises
`SysCallError` when its exit code is non-zero, which is caught and, unless
the code is in the accepted set `(0, 256)`, re-escalated at line 90 — where
`raise RepositoryError(...)` evaluates the unbound name `RepositoryError`
(not imported at line 11) and therefore raises `NameError`; then the
artifact (and, when requested, its `.sig`) is fetched with
`urlopen`, whose failures propagate uncaught; on full success the function
returns `True`.  The fetched package name is appended to the `downloads`
log when the artifact body is written (line 92-93). -/
def download_package (env : SyncEnv) (pkg repo url destination : Str)
    (includeSignature : Bool) (st : SyncState) :
    SyncState × Option AppError × Bool :=
  let scheme := urlScheme url
  if decide (scheme ≠ []) && (decide (scheme = ("https").toList) || decide (scheme = ("http").toList)) then
    let databasePath := destination ++ ("/").toList ++ repo ++ (".db.tar.gz").toList
    let exit := env.repoAddInitExit databasePath
    if decide (exit ≠ 0) && !(decide (exit = 0) || decide (exit = 256)) then
      (st, some .nameError, false)
    else if env.fetch url then
      let st := { st with downloads := st.downloads ++ [pkg] }
      if includeSignature && !(env.fetch (url ++ (".sig").toList)) then
        (st, some (.urlError (url ++ (".sig").toList)), false)
      else (st, Option.none, true)
    else (st, some (.urlError url), false)
  else
    (st, some (.packageError (("Unknown or unsupported URL scheme when downloading package: ").toList ++ scheme)), false)

/-- The mirror loop of `sync_packages` (lines 262-275): mirrors are tried in
list order; a mirror without `$package` gets `/$package` appended; `$repo`,
`$arch`, `$package` are substituted; each resulting URL is logged as an
attempt and handed to `download_package`, whose exceptions propagate out of
the loop; a `True` return sets `grabbed` and breaks. -/
def mirror_loop (env : SyncEnv) (pkg repo filename destination : Str) :
    List Str → SyncState → SyncState × Option AppError × Bool
  | [], st => (st, Option.none, false)
  | mirror :: rest, st =>
    let m := if !(pyContains mirror ("$package").toList) then mirror ++ ("/$package").toList else mirror
    let url := replaceL ("$package").toList filename
      (replaceL ("$arch").toList env.arch (replaceL ("$repo").toList repo m))
    let st := { st with mirrorAttempts := st.mirrorAttempts ++ [url] }
    match download_package env pkg repo url destination (env.skipSig = false) st with
    | (st, some e, _) => (st, some e, false)
    | (st, Option.none, true) => (st, Option.none, true)
    | (st, Option.none, false) =>
      mirror_loop env pkg repo filename destination rest st

/-- The per-line repository filter of the `pkgfile` / `pacman -Ss` fallback
loops (lines 198-201 and 218-221): candidates are scanned in output order;
a line whose repository flag on `storage['repositories']` is missing raises
`AttributeError`; a flag that `is False` skips the line; the first remaining
candidate is processed and the loop breaks after it. -/
def first_enabled_candidate (env : SyncEnv) :
    List (Str × Str) → Except AppError (Option (Str × Str))
  | [] => .ok Option.none
  | cand :: rest =>
    match env.repositories cand.1 with
    | Option.none => .error .attributeError
    | some false => first_enabled_candidate env rest
    | some true => .ok (some cand)

/-- The `repositories_to_update` insertion of lines 259-260. -/
def addRepoToUpdate (st : SyncState) (repo : Str) : SyncState :=
  if repo ∈ st.reposToUpdate then st
  else { st with reposToUpdate := st.reposToUpdate ++ [repo] }

/-- Lines 235-280 of `sync_packages` for one resolved package: constraint
check (any violation is a `PackageError`), the always-truthy cache probe at
lines 250-252 (`.exists` is never called, so it only logs), the
repository-activation check against `storage['arguments']` (line 254), the
`repositories_to_update` insertion (lines 259-260), the mirror loop, the
dead `if not grabbed` escalation (lines 277-278), and the `skip` append
(line 280).  Dependency recursion (lines 281-282) stays in `sync_packages`
itself. -/
def sync_main_part (env : SyncEnv) (name : Str) (c : VersionConstraint)
    (info : PackageInfo) (st : SyncState) : SyncState × Option AppError :=
  match checkConstraint c info.pkgver with
  | some msg => (st, some (.packageError msg))
  | Option.none =>
    let databasePath := env.path ++ ("/").toList ++ info.repo ++ ("/os/").toList ++ env.arch
    match env.argRepoFlag info.repo with
    | Option.none => (st, some .attributeError)
    | some false =>
      (st, some (.packageError (("Repository is not activated, package is blocked: ").toList ++ info.repo)))
    | some true =>
      let st := addRepoToUpdate st info.repo
      match mirror_loop env name info.repo info.filename databasePath env.mirrors st with
      | (st, some e, _) => (st, some e)
      | (st, Option.none, grabbed) =>
        if grabbed then ({ st with skip := st.skip ++ [name] }, Option.none)
        else (st, some (.packageError ("Implement pacman -Syw --cachedir --dbdir").toList))

/-- `sync_packages` (packages.py lines 146-284), fuelled: every recursive
entry (the substituted-candidate calls at lines 204/224, the dependency
recursion at line 282, and the iteration to the next element of the package
list) decreases the fuel; with enough fuel the behaviour matches the source.
Per package: constraint parse; `skip` test (lines 180-182); `find_package`
with `IsGroup` handled as a logged skip (189-191) and `PackageError`
diverting to the `pkgfile` fallback (192-213), whose `except SysCallError`
(line 215) also catches a `SysCallError` escaping the recursive call at line
204 and then runs the `pacman -Ss` fallback (216-233).  When the `pkgfile`
loop finds no enabled candidate, execution falls out of the handler to line
235, where `package_info` still holds the value assigned by an *earlier*
iteration of the enclosing loop (threaded here as `lastInfo`), or is unbound
(`NameError`).  Successful fallback candidates are resolved recursively,
appended to `skip` (line 206 — `pkgfile` path only), searched a second time
(lines 208/225), and the outer loop `continue`s.  The found/main path is
`sync_main_part` followed by the dependency recursion with the same shared
state.  Errors carry the state reached so far (the in-place `skip` list
mutations survive Python's stack unwinding). -/
def sync_packages (env : SyncEnv) :
    Nat → List Str → Option PackageInfo → SyncState → SyncState × Option AppError
  | 0, _, _, st => (st, some .fuelOut)
  | _ + 1, [], _, st => (st, Option.none)
  | fuel + 1, raw :: rest, lastInfo, st =>
    if (parseSpec raw).1 ∈ st.skip then
      sync_packages env fuel rest lastInfo st
    else
      let st1 := recordSearch st (parseSpec raw).1
      match find_package env (parseSpec raw).1 with
      | .ok info =>
        match sync_main_part env (parseSpec raw).1 (parseSpec raw).2 info st1 with
        | (st2, some e) => (st2, some e)
        | (st2, Option.none) =>
          if info.depends.isEmpty then
            sync_packages env fuel rest (some info) st2
          else
            match sync_packages env fuel info.depends Option.none st2 with
            | (st3, some e) => (st3, some e)
            | (st3, Option.none) => sync_packages env fuel rest (some info) st3
      | .error .isGroup =>
        sync_packages env fuel rest lastInfo st1
      | .error .notFound =>
        match env.pkgfile (parseSpec raw).1 with
        | some lines =>
          match first_enabled_candidate env lines with
          | .error e => (st1, some e)
          | .ok (some cand) =>
            match sync_packages env fuel [cand.2] Option.none st1 with
            | (st2, some (.sysCallError _ _ _)) =>
              -- `except SysCallError` (line 215) catches the escape and runs pacman
              match env.pacman (parseSpec raw).1 with
              | Option.none => (st2, some (.sysCallError (("pacman --color never -Ss ").toList ++ (parseSpec raw).1) Option.none []))
              | some lines2 =>
                match first_enabled_candidate env lines2 with
                | .error e => (st2, some e)
                | .ok (some cand2) =>
                  match sync_packages env fuel [cand2.2] Option.none st2 with
                  | (st4, some e) => (st4, some e)
                  | (st4, Option.none) =>
                    let st5 := recordSearch st4 cand2.2
                    match find_package env cand2.2 with
                    | .ok info2 => sync_packages env fuel rest (some info2) st5
                    | .error .isGroup => (st5, some (.isGroupSignal cand2.2))
                    | .error .notFound =>
                      (st5, some (.packageError (("Could not locate ").toList ++ cand2.2)))
                | .ok Option.none =>
                  (st2, some (.packageError (("Could not locate dependency ").toList ++ (parseSpec raw).1 ++ (" using pkgfile").toList)))
            | (st2, some e) => (st2, some e)
            | (st2, Option.none) =>
              let st3 := recordSearch { st2 with skip := st2.skip ++ [cand.2] } cand.2
              match find_package env cand.2 with
              | .ok info2 => sync_packages env fuel rest (some info2) st3
              | .error .isGroup => (st3, some (.isGroupSignal cand.2))
              | .error .notFound =>
                (st3, some (.packageError (("Could not locate ").toList ++ cand.2)))
          | .ok Option.none =>
            -- found_fildep is False: fall through to line 235 with a stale
            -- (or unbound) `package_info`
            match lastInfo with
            | Option.none => (st1, some .nameError)
            | some info =>
              match sync_main_part env (parseSpec raw).1 (parseSpec raw).2 info st1 with
              | (st2, some e) => (st2, some e)
              | (st2, Option.none) =>
                if info.depends.isEmpty then
                  sync_packages env fuel rest (some info) st2
                else
                  match sync_packages env fuel info.depends Option.none st2 with
                  | (st3, some e) => (st3, some e)
                  | (st3, Option.none) => sync_packages env fuel rest (some info) st3
        | Option.none =>
          -- the `pkgfile` SysCommand itself raised SysCallError: pacman fallback
          match env.pacman (parseSpec raw).1 with
          | Option.none => (st1, some (.sysCallError (("pacman --color never -Ss ").toList ++ (parseSpec raw).1) Option.none []))
          | some lines2 =>
            match first_enabled_candidate env lines2 with
            | .error e => (st1, some e)
            | .ok (some cand2) =>
              match sync_packages env fuel [cand2.2] Option.none st1 with
              | (st4, some e) => (st4, some e)
              | (st4, Option.none) =>
                let st5 := recordSearch st4 cand2.2
                match find_package env cand2.2 with
                | .ok info2 => sync_packages env fuel rest (some info2) st5
                | .error .isGroup => (st5, some (.isGroupSignal cand2.2))
                | .error .notFound =>
                  (st5, some (.packageError (("Could not locate ").toList ++ cand2.2)))
            | .ok Option.none =>
              (st1, some (.packageError (("Could not locate dependency ").toList ++ (parseSpec raw).1 ++ (" using pkgfile").toList)))

/-- `__main__` (src/myrepo/__main__.py lines 13-19): when a destination path
is configured it calls `setup_destination` (directory and database-stub
creation, no effect on the resolution state) and then `sync_packages`,
*discarding* the returned repository list; no `update_repo_db` call follows
anywhere in the program.  The second component is the list of repositories
for which a database rebuild is triggered after the sync returns. -/
def main_run_rebuilds (env : SyncEnv) (fuel : Nat) (packages : List Str) :
    SyncState × List Str :=
  match sync_packages env fuel packages Option.none initState with
  | (st, _) => (st, [])

/-- Environment of `update_repo_db` (packages.py lines 286-298): `glob.glob`
results per pattern and, per command line, the exit status and trace log of
the `SysCommand` invocation. -/
structure DbEnv where
  glob : Str → List Str
  run : Str → Int × Str

/-- The `repo-add` command line built at line 294 for one artifact. -/
def repoAddCmd (databasePath repo pkg : Str) : Str :=
  ("repo-add --new --remove --prevent-downgrade --sign ").toList ++
    databasePath ++ ("/").toList ++ repo ++ (".db.tar.gz ").toList ++ pkg

/-- The artifact loop of `update_repo_db` (lines 291-296): for each artifact,
the `SysCommand` raises `SysCallError` exactly when the builder's exit code
is non-zero (worker `__exit__`, workers.py line 162); the handler at line
295 catches it and line 296 executes `raise RepositoryError(...)` — but
`RepositoryError` is an unbound name in packages.py (line 11 imports only
`PackageError` and `SysCallError`), so evaluating the raised expression
crashes with `NameError` before any `RepositoryError` can be constructed. -/
def update_repo_loop (env : DbEnv) (databasePath repo : Str) :
    List Str → Except AppError Bool
  | [] => .ok true
  | pkg :: rest =>
    let r := env.run (repoAddCmd databasePath repo pkg)
    if r.1 ≠ 0 then
      .error .nameError
    else update_repo_loop env databasePath repo rest

/-- The repository database directory `path/repo/os/<arch>` (packages.py
lines 250 and 288). -/
def database_path_of (path repo arch : Str) : Str :=
  path ++ ("/").toList ++ repo ++ ("/os/").toList ++ arch

/-- `update_repo_db` (packages.py lines 286-298): enumerate the artifacts of
both supported extensions under `path/repo/os/<arch>` and fold them through
the `repo-add` loop. -/
def update_repo_db (env : DbEnv) (repo path arch : Str) : Except AppError Bool :=
  update_repo_loop env (database_path_of path repo arch) repo
    (env.glob (database_path_of path repo arch ++ ("/*.pkg.tar.xz").toList) ++
      env.glob (database_path_of path repo arch ++ ("/*.pkg.tar.zst").toList))

/-- The observable fields of one `SysCommandWorker` session
(src/myrepo/system/workers.py lines 46-93): the resolved command vector, the
exit code (`None` while running), the trace log with its read cursor, the
child descriptor (`None` once closed / before spawn) and the `started`
flag. -/
structure WorkerState where
  cmd : List Str
  exitCode : Option Int
  traceLog : Str
  traceLogPos : Nat
  childFd : Option Int
  started : Bool
deriving DecidableEq, Repr

/-- `SysCommandWorker.__contains__` (workers.py lines 95-107): search for
`key` in `self._trace_log[self._trace_log_pos:]` only; when found, advance
the cursor by the first match index plus the key length. -/
def worker_contains (s : WorkerState) (key : Str) : Bool × WorkerState :=
  match findSub key (s.traceLog.drop s.traceLogPos) with
  | some i => (true, { s with traceLogPos := s.traceLogPos + i + key.length })
  | Option.none => (false, s)

/-- The trace-log append performed by a `poll` that read new output
(workers.py line 248: `self._trace_log += output`). -/
def appendOutput (s : WorkerState) (output : Str) : WorkerState :=
  { s with traceLog := s.traceLog ++ output }

/-- `execute` (workers.py lines 265-307) restricted to its effect on the
worker-state fields the cursor operations can observe: the pty fork and
multiplexer registration are OS effects outside the embedding; the trace log
and its cursor are untouched and the session becomes started. -/
def executeSpawn (s : WorkerState) : WorkerState :=
  { s with started := true }

/-- `make_sure_we_are_executing` (workers.py lines 190-197). -/
def make_sure_we_are_executing (s : WorkerState) : WorkerState :=
  if s.started then s else executeSpawn s

/-- `SysCommandWorker.seek` (workers.py lines 207-214):
`self._trace_log_pos = min(max(0, pos), len(self._trace_log))` on Python
integers. -/
def worker_seek (s : WorkerState) (pos : Int) : WorkerState :=
  let s := make_sure_we_are_executing s
  { s with traceLogPos := (min (max 0 pos) ((s.traceLog.length : Int))).toNat }

/-- `SysCommandWorker.__exit__` (workers.py lines 136-163): the child
descriptor is closed whenever `self.child_fd` is truthy (any failure of
`os.close` is swallowed); the `peak_output` newline and error logging have
no state effect; finally `SysCallError` is raised exactly when
`self.exit_code != 0` (which includes a still-unset `None` exit code),
carrying the exit code and `self.decode()[:100]` — the first 100 characters
of the decoded trace log — inside its message.  Returns whether the
descriptor was closed and the raised error, if any. -/
def worker_exit (s : WorkerState) : Bool × Option AppError :=
  let closed := match s.childFd with
                | some fd => decide (fd ≠ 0)
                | Option.none => false
  if s.exitCode ≠ some 0 then
    (closed, some (.sysCallError (List.intercalate (" ").toList s.cmd) s.exitCode (s.traceLog.take 100)))
  else (closed, Option.none)

/-- The filesystem view `locate_binary` scans: for each directory, the files
of that directory itself (the first tuple `os.walk` yields; the `break` at
helpers.py line 14 prevents any recursion into subdirectories).
`Option.none` models a directory `os.walk` yields nothing for (absent or
unreadable). -/
structure FileSystem where
  dirs : Str → Option (List Str)

/-- The per-directory scan of `locate_binary` (src/myrepo/system/helpers.py
lines 8-16): directories of the inherited search path in order; within each,
the files in listing order; the first file equal to `name` wins and is
joined onto its directory; exhaustion raises `RequirementError`. -/
def locate_binary_loop (fs : FileSystem) (name : Str) :
    List Str → Except AppError Str
  | [] => .error (.requirementError name)
  | dir :: rest =>
    match fs.dirs dir with
    | Option.none => locate_binary_loop fs name rest
    | some files =>
      match files.find? (fun f => decide (f = name)) with
      | some f => .ok (pyPathJoin dir f)
      | Option.none => locate_binary_loop fs name rest

/-- `locate_binary` (helpers.py lines 8-16): `os.environ['PATH']` is split on
`:` and scanned in order. -/
def locate_binary (fs : FileSystem) (pathVar : Str) (name : Str) :
    Except AppError Str :=
  locate_binary_loop fs name (splitOnL (":").toList pathVar)

/-- The `argv[0]` resolution of `SysCommandWorker.__init__` (workers.py
lines 69-77): an argv head that does not start with `/` and does not start
with `./` is replaced by the `locate_binary` result; an empty command vector
or empty argv head would raise `IndexError` at `cmd[0][0]`. -/
def resolve_argv0 (fs : FileSystem) (pathVar : Str) (cmd : List Str) :
    Except AppError (List Str) :=
  match cmd with
  | [] => .error .indexError
  | c :: rest =>
    match c with
    | [] => .error .indexError
    | ch :: _ =>
      if decide (ch ≠ '/') && !(("./").toList.isPrefixOf c) then
        match locate_binary fs pathVar c with
        | .ok p => .ok (p :: rest)
        | .error e => .error e
      else .ok (c :: rest)

/-- The specification's characterisation of binary lookup (spec section 4.1:
"scanning the inherited search-path directories (non-recursive, first match
wins)"): the first directory of the search path containing `name` yields the
joined path. -/
def locate_binary_spec (fs : FileSystem) (pathVar : Str) (name : Str) :
    Option Str :=
  (splitOnL (":").toList pathVar).findSome? (fun dir =>
    match fs.dirs dir with
    | some files => if name ∈ files then some (pyPathJoin dir name) else Option.none
    | Option.none => Option.none)

set_option maxRecDepth 40000

/-- Package name `A` of the concrete test environments. -/
def strA : Str := ("A").toList

/-- Package name `B` of the concrete test environments. -/
def strB : Str := ("B").toList

/-- Package name `X` of the fallback test environment. -/
def strX : Str := ("X").toList

/-- Package name `Y` of the fallback test environment. -/
def strY : Str := ("Y").toList

/-- Repository name `core`. -/
def strCore : Str := ("core").toList

/-- Search result for `A` with no dependencies. -/
def infoA : PackageInfo :=
  ⟨strA, ("1.0").toList, strCore, ("A-1.pkg.tar.zst").toList, []⟩

/-- Search result for `A` depending on `B` (cycle environment). -/
def infoAB : PackageInfo :=
  ⟨strA, ("1.0").toList, strCore, ("A-1.pkg.tar.zst").toList, [strB]⟩

/-- Search result for `B` depending on `A` (cycle environment). -/
def infoBA : PackageInfo :=
  ⟨strB, ("1.0").toList, strCore, ("B-1.pkg.tar.zst").toList, [strA]⟩

/-- Search result for `Y` (pkgfile-fallback environment). -/
def infoY : PackageInfo :=
  ⟨strY, ("1.0").toList, ("extra").toList, ("Y-1.pkg.tar.zst").toList, []⟩

/-- Search result for `foo` resolved at version `1.1.9`. -/
def infoFoo : PackageInfo :=
  ⟨("foo").toList, ("1.1.9").toList, strCore, ("foo-1.1.9.pkg.tar.zst").toList, []⟩

/-- A benign environment: every repository enabled, one working `https`
mirror, all fetches succeed, `repo-add` exits 0, signatures skipped. -/
def benignEnv (search : Str → SearchOutcome) : SyncEnv where
  search := search
  isGroup := fun _ => false
  pkgfile := fun _ => Option.none
  pacman := fun _ => Option.none
  repositories := fun _ => some true
  argRepoFlag := fun _ => some true
  mirrors := [("https://m1/$repo/$arch/$package").toList]
  arch := ("x86_64").toList
  path := ("/srv/repo").toList
  skipSig := true
  repoAddInitExit := fun _ => 0
  fetch := fun _ => true

/-- Environment where `A` has no dependencies. -/
def envA : SyncEnv :=
  benignEnv (fun n => if n = strA then .found infoA else .empty)

/-- Environment with the dependency cycle `A → B → A`. -/
def envAB : SyncEnv :=
  benignEnv (fun n =>
    if n = strA then .found infoAB else if n = strB then .found infoBA else .empty)

/-- Environment where `foo` resolves to version `1.1.9`. -/
def envC1 : SyncEnv :=
  benignEnv (fun n => if n = ("foo").toList then .found infoFoo else .empty)

/-- Environment whose mirror list starts with a `ftp://` (bad-scheme) mirror
followed by two working `https` mirrors. -/
def envC3 : SyncEnv :=
  { benignEnv (fun n => if n = strA then .found infoA else .empty) with
    mirrors := [("ftp://bad.mirror/$repo/$arch/$package").toList,
                ("https://m1/$repo/$arch/$package").toList,
                ("https://m2/$repo/$arch/$package").toList] }

/-- Environment where `X` is unknown to the search endpoint and `pkgfile`
reports `extra/Y`, with `Y` resolvable normally. -/
def envCx : SyncEnv :=
  { benignEnv (fun n => if n = strY then .found infoY else .empty) with
    pkgfile := fun n => if n = strX then some [(("extra").toList, strY)] else Option.none }

/-- C1: the `>=` constraint check accepts `1.2.0` and `1.3.0` as the claim
states, but also silently accepts `1.1.9`: `VersionDef.__lt__` never returns
`True` (it only ever returns `False` early or falls through to `None`, both
falsy in the `elif` chain at packages.py line 240 — here `1.1.9 < 1.2.0`
answers `False` because the patch components compare `9 > 0`), so a full
sync of `foo>=1.2.0` against a resolved `1.1.9` completes without any
`PackageError` and downloads the package. -/
theorem claim_C1_constraint_never_enforced :
    parseSpec ("foo>=1.2.0").toList = (("foo").toList, VersionConstraint.geq ("1.2.0").toList) ∧
    checkConstraint (VersionConstraint.geq ("1.2.0").toList) ("1.2.0").toList = Option.none ∧
    checkConstraint (VersionConstraint.geq ("1.2.0").toList) ("1.3.0").toList = Option.none ∧
    checkConstraint (VersionConstraint.geq ("1.2.0").toList) ("1.1.9").toList = Option.none ∧
    VersionDef.lt (VersionDef.make ("1.1.9").toList) (VersionDef.make ("1.2.0").toList) = some false ∧
    (sync_packages envC1 5 [("foo>=1.2.0").toList] Option.none initState).2 = Option.none ∧
    (sync_packages envC1 5 [("foo>=1.2.0").toList] Option.none initState).1.downloads = [("foo").toList] := by
  decide

/-- C2: `VersionDef.__lt__` is not total: whenever no component comparison
returns early it falls through and returns `None` (undefined), including on
`1.2.0 < 1.3.0` (which should be `True`) and on the absent-component pairs
`1.2` versus `1.2.0` in both orders. -/
theorem claim_C2_lt_returns_undefined :
    VersionDef.lt (VersionDef.make ("1.2.0").toList) (VersionDef.make ("1.3.0").toList) = Option.none ∧
    VersionDef.lt (VersionDef.make ("1.2").toList) (VersionDef.make ("1.2.0").toList) = Option.none ∧
    VersionDef.lt (VersionDef.make ("1.2.0").toList) (VersionDef.make ("1.2").toList) = Option.none := by
  decide

/-- C3: with the mirror list `[ftp://bad.mirror/…, https://m1/…,
https://m2/…]`, `download_package` raises `PackageError` for the bad-scheme
mirror (packages.py line 101) and the exception propagates out of the mirror
loop of `sync_packages` (line 273 has no handler): the sync aborts, `m1` is
never attempted and nothing is downloaded — the claim's fallback to `m1`
does not happen. -/
theorem claim_C3_bad_scheme_mirror_is_fatal :
    (sync_packages envC3 5 [strA] Option.none initState).2 =
      some (AppError.packageError
        (("Unknown or unsupported URL scheme when downloading package: ").toList ++ ("ftp").toList)) ∧
    (sync_packages envC3 5 [strA] Option.none initState).1.mirrorAttempts =
      [("ftp://bad.mirror/core/x86_64/A-1.pkg.tar.zst").toList] ∧
    (sync_packages envC3 5 [strA] Option.none initState).1.downloads = [] := by
  decide

/-- C4 counterexample: when `X` is not found by the search and the `pkgfile`
fallback substitutes `extra/Y`, the run completes but the name `Y` is passed
to `find_package` twice — once inside the recursive resolution (line 204)
and again at line 208 after it returns — so "every package name is searched
at most once" is false. -/
theorem claim_C4_counterexample_double_search :
    (sync_packages envCx 10 [strX] Option.none initState).2 = Option.none ∧
    (sync_packages envCx 10 [strX] Option.none initState).1.searches = [strX, strY, strY] ∧
    ¬ (sync_packages envCx 10 [strX] Option.none initState).1.searches.Nodup ∧
    (sync_packages envCx 10 [strX] Option.none initState).1.downloads = [strY] := by
  decide

/-- C5: the top-level caller (src/myrepo/__main__.py lines 16-19) discards
the repository list `sync_packages` returns and never invokes
`update_repo_db`: a run that touches the `core` repository triggers zero
database rebuilds. -/
theorem claim_C5_rebuild_never_triggered :
    (sync_packages envA 10 [strA] Option.none initState).2 = Option.none ∧
    (main_run_rebuilds envA 10 [strA]).1.reposToUpdate = [strCore] ∧
    (main_run_rebuilds envA 10 [strA]).2 = [] := by
  decide

/-- C10: `seek` clamps the cursor to `min(max(0, pos), len(trace_log))`
(workers.py line 214), so after any `seek` — including negative positions
and positions past the end — the cursor lies within the trace log. -/
theorem claim_C10_seek_clamps (s : WorkerState) (pos : Int) :
    (worker_seek s pos).traceLogPos = (min (max 0 pos) ((s.traceLog.length : Int))).toNat ∧
    (worker_seek s pos).traceLogPos ≤ s.traceLog.length := by
  unfold worker_seek make_sure_we_are_executing executeSpawn
  by_cases h : s.started <;> simp [h]

/-- The run invariant behind the visited-set argument: no package has been
downloaded twice, and every downloaded package is in the skip list. -/
def SyncInv (st : SyncState) : Prop :=
  st.downloads.Nodup ∧ ∀ p, p ∈ st.downloads → p ∈ st.skip

/-- Errors that either did not occur or are caught by the `except
SysCallError` handler at packages.py line 215. -/
def isNoneOrSysCall : Option AppError → Bool
  | Option.none => true
  | some (.sysCallError _ _ _) => true
  | some _ => false

theorem isNoneOrSysCall_iff (e : Option AppError) :
    isNoneOrSysCall e = true ↔
      e = Option.none ∨ ∃ a k x, e = some (.sysCallError a k x) := by
  cases e with
  | none => simp [isNoneOrSysCall]
  | some err => cases err <;> simp [isNoneOrSysCall]

theorem recordSearch_skip (st : SyncState) (n : Str) :
    (recordSearch st n).skip = st.skip := rfl

theorem recordSearch_downloads (st : SyncState) (n : Str) :
    (recordSearch st n).downloads = st.downloads := rfl

theorem SyncInv.ofRecordSearch {st : SyncState} (h : SyncInv st) (n : Str) :
    SyncInv (recordSearch st n) := h

theorem SyncInv.ofSkipAppend {st : SyncState} (h : SyncInv st) (l : List Str) :
    SyncInv { st with skip := st.skip ++ l } := by
  refine ⟨h.1, fun p hp => ?_⟩
  exact List.mem_append_left l (h.2 p hp)

/-- On success, `download_package` fetched the artifact: `grabbed` is true,
the skip list and repository list are untouched, and exactly the one package
name was appended to the download log. -/
theorem download_package_ok (env : SyncEnv) (pkg repo url destination : Str)
    (inclSig : Bool) (st st' : SyncState) (b : Bool)
    (h : download_package env pkg repo url destination inclSig st = (st', Option.none, b)) :
    b = true ∧ st'.skip = st.skip ∧ st'.reposToUpdate = st.reposToUpdate ∧
      st'.downloads = st.downloads ++ [pkg] := by
  rw [download_package] at h
  simp only [] at h
  repeat' split at h
  all_goals cases h
  all_goals simp_all

/-- `download_package` never raises `SysCallError` itself (it raises
`PackageError`, `RepositoryError` or a propagating `urllib` error). -/
theorem download_package_no_syscall (env : SyncEnv) (pkg repo url destination : Str)
    (inclSig : Bool) (st st' : SyncState) (b : Bool) (a : Str) (k : Option Int) (x : Str)
    (h : download_package env pkg repo url destination inclSig st = (st', some (.sysCallError a k x), b)) :
    False := by
  rw [download_package] at h
  simp only [] at h
  repeat' split at h
  all_goals cases h

/-- On success, the mirror loop leaves the skip and repository lists alone
and appends the package name to the download log exactly when `grabbed`. -/
theorem mirror_loop_ok (env : SyncEnv) (pkg repo filename destination : Str) :
    ∀ (ms : List Str) (st st' : SyncState) (b : Bool),
    mirror_loop env pkg repo filename destination ms st = (st', Option.none, b) →
    st'.skip = st.skip ∧ st'.reposToUpdate = st.reposToUpdate ∧
      ((b = true ∧ st'.downloads = st.downloads ++ [pkg]) ∨
        (b = false ∧ st'.downloads = st.downloads)) := by
  intro ms
  induction ms with
  | nil =>
    intro st st' b h
    rw [mirror_loop] at h
    cases h
    simp
  | cons m rest ih =>
    intro st st' b h
    rw [mirror_loop] at h
    split at h
    case _ stD e bD hD =>
      simp at h
    case _ stD heq =>
      cases h
      have hd := download_package_ok _ _ _ _ _ _ _ _ _ heq
      exact ⟨hd.2.1, hd.2.2.1, Or.inl ⟨rfl, hd.2.2.2⟩⟩
    case _ stD heq =>
      exact absurd (download_package_ok _ _ _ _ _ _ _ _ _ heq).1 (by simp)

/-- The mirror loop never produces a `SysCallError`. -/
theorem mirror_loop_no_syscall (env : SyncEnv) (pkg repo filename destination : Str) :
    ∀ (ms : List Str) (st st' : SyncState) (b : Bool) (a : Str) (k : Option Int) (x : Str),
    mirror_loop env pkg repo filename destination ms st =
      (st', some (.sysCallError a k x), b) → False := by
  intro ms
  induction ms with
  | nil =>
    intro st st' b a k x h
    rw [mirror_loop] at h
    cases h
  | cons m rest ih =>
    intro st st' b a k x h
    rw [mirror_loop] at h
    split at h
    case _ stD e bD hD =>
      cases h
      exact download_package_no_syscall _ _ _ _ _ _ _ _ _ _ _ _ hD
    case _ stD heq => cases h
    case _ stD heq => exact ih _ _ _ _ _ _ h

theorem addRepoToUpdate_skip (st : SyncState) (repo : Str) :
    (addRepoToUpdate st repo).skip = st.skip := by
  unfold addRepoToUpdate
  split <;> rfl

theorem addRepoToUpdate_downloads (st : SyncState) (repo : Str) :
    (addRepoToUpdate st repo).downloads = st.downloads := by
  unfold addRepoToUpdate
  split <;> rfl

/-- On success, `sync_main_part` appended the one package name to both the
skip list (line 280) and the download log, and touched nothing else in
either list. -/
theorem sync_main_part_ok (env : SyncEnv) (name : Str) (c : VersionConstraint)
    (info : PackageInfo) (st st' : SyncState)
    (h : sync_main_part env name c info st = (st', Option.none)) :
    st'.skip = st.skip ++ [name] ∧ st'.downloads = st.downloads ++ [name] := by
  rw [sync_main_part] at h
  split at h
  · cases h
  · simp only [] at h
    split at h
    · cases h
    · cases h
    · split at h
      case _ stM e hm => cases h
      case _ stM grabbed hm =>
        split at h
        case isTrue hg =>
          cases h
          have hm2 := mirror_loop_ok _ _ _ _ _ _ _ _ _ hm
          subst hg
          rcases hm2.2.2 with ⟨_, hdl⟩ | ⟨hfalse, _⟩
          · constructor
            · rw [hm2.1, addRepoToUpdate_skip]
            · rw [hdl, addRepoToUpdate_downloads]
          · cases hfalse
        case isFalse hg => cases h

/-- `sync_main_part` never produces a `SysCallError`. -/
theorem sync_main_part_no_syscall (env : SyncEnv) (name : Str)
    (c : VersionConstraint) (info : PackageInfo) (st st' : SyncState)
    (a : Str) (k : Option Int) (x : Str)
    (h : sync_main_part env name c info st = (st', some (.sysCallError a k x))) :
    False := by
  rw [sync_main_part] at h
  split at h
  · cases h
  · simp only [] at h
    split at h
    · cases h
    · cases h
    · split at h
      case _ stM e hm =>
        cases h
        exact mirror_loop_no_syscall _ _ _ _ _ _ _ _ _ _ _ _ hm
      case _ stM grabbed hm =>
        split at h <;> cases h

/-- The fallback candidate filter can only fail with `AttributeError`. -/
theorem first_enabled_candidate_err (env : SyncEnv) :
    ∀ (lines : List (Str × Str)) (e : AppError),
    first_enabled_candidate env lines = .error e → e = .attributeError := by
  intro lines
  induction lines with
  | nil =>
    intro e h
    rw [first_enabled_candidate] at h
    cases h
  | cons cand rest ih =>
    intro e h
    rw [first_enabled_candidate] at h
    split at h
    · cases h; rfl
    · exact ih _ h
    · cases h

/-- Appending one undownloaded name to both the skip list and the download
log preserves the run invariant. -/
theorem SyncInv.afterMain {st st' : SyncState} {name : Str} (hInv : SyncInv st)
    (hnotin : name ∉ st.skip) (hskip : st'.skip = st.skip ++ [name])
    (hdl : st'.downloads = st.downloads ++ [name]) : SyncInv st' := by
  constructor
  · rw [hdl]
    refine List.Nodup.append hInv.1 (List.nodup_singleton name) ?_
    intro a ha hb
    rw [List.mem_singleton] at hb
    subst hb
    exact hnotin (hInv.2 a ha)
  · intro p hp
    rw [hdl, List.mem_append] at hp
    rw [hskip, List.mem_append]
    rcases hp with hp | hp
    · exact Or.inl (hInv.2 p hp)
    · exact Or.inr hp

/-- Invariant preservation for one resolution run: if no package has been
downloaded twice and every downloaded package is on the skip list, then the
same holds after `sync_packages` (for a successful result, or one whose
escaping error is the `SysCallError` the source catches), and the skip list
only ever grows. -/
theorem sync_packages_inv (env : SyncEnv) :
    ∀ (fuel : Nat) (pkgs : List Str) (li : Option PackageInfo) (st st' : SyncState)
      (e : Option AppError),
    sync_packages env fuel pkgs li st = (st', e) →
    SyncInv st → isNoneOrSysCall e = true →
    SyncInv st' ∧ ∀ x, x ∈ st.skip → x ∈ st'.skip := by
  intro fuel
  induction fuel with
  | zero =>
    intro pkgs li st st' e h hInv hE
    rw [sync_packages] at h
    cases h
    cases hE
  | succ n ih =>
    intro pkgs li st st' e h hInv hE
    match pkgs with
    | [] =>
      rw [sync_packages] at h
      cases h
      exact ⟨hInv, fun x hx => hx⟩
    | raw :: rest =>
      rw [sync_packages] at h
      split at h
      case isTrue hskip =>
        exact ih rest li st st' e h hInv hE
      case isFalse hskip =>
        split at h
        case _ info hfind =>
          simp only [] at h
          split at h
          case _ st2 e2 hmain =>
            cases h
            rcases (isNoneOrSysCall_iff _).mp hE with hno | ⟨a, k, x, hsys⟩
            · cases hno
            · cases hsys
              exact (sync_main_part_no_syscall _ _ _ _ _ _ _ _ _ hmain).elim
          case _ st2 hmain =>
            have hmo := sync_main_part_ok _ _ _ _ _ _ hmain
            have hInv2 : SyncInv st2 := by
              refine SyncInv.afterMain (SyncInv.ofRecordSearch hInv _) ?_ hmo.1 hmo.2
              rwa [recordSearch_skip]
            have mono1 : ∀ x, x ∈ st.skip → x ∈ st2.skip := by
              intro x hx
              rw [hmo.1, recordSearch_skip]
              exact List.mem_append_left _ hx
            split at h
            case isTrue hdep =>
              obtain ⟨hI, hM⟩ := ih rest (some info) st2 st' e h hInv2 hE
              exact ⟨hI, fun x hx => hM x (mono1 x hx)⟩
            case isFalse hdep =>
              split at h
              case _ st3 e3 hdeps =>
                cases h
                obtain ⟨hI, hM⟩ := ih info.depends Option.none st2 st' (some e3) hdeps hInv2 hE
                exact ⟨hI, fun x hx => hM x (mono1 x hx)⟩
              case _ st3 hdeps =>
                obtain ⟨hI3, hM3⟩ := ih info.depends Option.none st2 st3 Option.none hdeps hInv2 rfl
                obtain ⟨hI, hM⟩ := ih rest (some info) st3 st' e h hI3 hE
                exact ⟨hI, fun x hx => hM x (hM3 x (mono1 x hx))⟩
        case _ hfind =>
          obtain ⟨hI, hM⟩ := ih rest li (recordSearch st (parseSpec raw).1) st' e h
            (SyncInv.ofRecordSearch hInv _) hE
          rw [recordSearch_skip] at hM
          exact ⟨hI, hM⟩
        case _ hfind =>
          simp only [] at h
          split at h
          case _ lines hpk =>
            split at h
            case _ efe hfe =>
              cases h
              rcases (isNoneOrSysCall_iff _).mp hE with hno | ⟨a, k, x, hsys⟩
              · cases hno
              · cases hsys
                cases first_enabled_candidate_err env lines _ hfe
            case _ cand hfe =>
              split at h
              next st2 a k x hrec =>
                obtain ⟨hInvP, monoP0⟩ := ih [cand.2] Option.none
                  (recordSearch st (parseSpec raw).1) st2
                  (some (.sysCallError a k x)) hrec (SyncInv.ofRecordSearch hInv _) rfl
                rw [recordSearch_skip] at monoP0
                split at h
                case _ hpac =>
                  cases h
                  exact ⟨hInvP, monoP0⟩
                case _ lines2 hpac =>
                  split at h
                  case _ efe2 hfe2 =>
                    cases h
                    cases first_enabled_candidate_err env lines2 _ hfe2
                    simp [isNoneOrSysCall] at hE
                  case _ cand2 hfe2 =>
                    split at h
                    case _ st4 e4 hrec2 =>
                      cases h
                      obtain ⟨hI, hM⟩ := ih [cand2.2] Option.none st2 st' (some e4) hrec2 hInvP hE
                      exact ⟨hI, fun y hy => hM y (monoP0 y hy)⟩
                    case _ st4 hrec2 =>
                      obtain ⟨hI4, hM4⟩ := ih [cand2.2] Option.none st2 st4 Option.none hrec2 hInvP rfl
                      split at h
                      case _ info2 hf2 =>
                        obtain ⟨hI, hM⟩ := ih rest (some info2) (recordSearch st4 cand2.2) st' e h
                          (SyncInv.ofRecordSearch hI4 _) hE
                        rw [recordSearch_skip] at hM
                        exact ⟨hI, fun y hy => hM y (hM4 y (monoP0 y hy))⟩
                      case _ hf2 =>
                        cases h
                        simp [isNoneOrSysCall] at hE
                      case _ hf2 =>
                        cases h
                        simp [isNoneOrSysCall] at hE
                  case _ hfe2 =>
                    cases h
                    simp [isNoneOrSysCall] at hE
              next st2 e2 hne hrec =>
                cases h
                rcases (isNoneOrSysCall_iff _).mp hE with hno | ⟨a, k, x, hsys⟩
                · cases hno
                · cases hsys
                  exact (hne _ _ _ rfl).elim
              next st2 hrec =>
                obtain ⟨hI2, hM2⟩ := ih [cand.2] Option.none
                  (recordSearch st (parseSpec raw).1) st2 Option.none hrec
                  (SyncInv.ofRecordSearch hInv _) rfl
                rw [recordSearch_skip] at hM2
                split at h
                case _ info2 hf2 =>
                  obtain ⟨hI, hM⟩ := ih rest (some info2) _ st' e h
                    (SyncInv.ofRecordSearch (SyncInv.ofSkipAppend hI2 _) _) hE
                  refine ⟨hI, fun y hy => hM y ?_⟩
                  rw [recordSearch_skip]
                  exact List.mem_append_left _ (hM2 y hy)
                case _ hf2 =>
                  cases h
                  simp [isNoneOrSysCall] at hE
                case _ hf2 =>
                  cases h
                  simp [isNoneOrSysCall] at hE
            case _ hfe =>
              split at h
              case _ =>
                cases h
                simp [isNoneOrSysCall] at hE
              case _ info =>
                split at h
                case _ st2 e2 hmain =>
                  cases h
                  rcases (isNoneOrSysCall_iff _).mp hE with hno | ⟨a, k, x, hsys⟩
                  · cases hno
                  · cases hsys
                    exact (sync_main_part_no_syscall _ _ _ _ _ _ _ _ _ hmain).elim
                case _ st2 hmain =>
                  have hmo := sync_main_part_ok _ _ _ _ _ _ hmain
                  have hInv2 : SyncInv st2 := by
                    refine SyncInv.afterMain (SyncInv.ofRecordSearch hInv _) ?_ hmo.1 hmo.2
                    rwa [recordSearch_skip]
                  have mono1 : ∀ x, x ∈ st.skip → x ∈ st2.skip := by
                    intro x hx
                    rw [hmo.1, recordSearch_skip]
                    exact List.mem_append_left _ hx
                  split at h
                  case isTrue hdep =>
                    obtain ⟨hI, hM⟩ := ih rest (some info) st2 st' e h hInv2 hE
                    exact ⟨hI, fun x hx => hM x (mono1 x hx)⟩
                  case isFalse hdep =>
                    split at h
                    case _ st3 e3 hdeps =>
                      cases h
                      obtain ⟨hI, hM⟩ := ih info.depends Option.none st2 st' (some e3) hdeps hInv2 hE
                      exact ⟨hI, fun x hx => hM x (mono1 x hx)⟩
                    case _ st3 hdeps =>
                      obtain ⟨hI3, hM3⟩ := ih info.depends Option.none st2 st3 Option.none hdeps hInv2 rfl
                      obtain ⟨hI, hM⟩ := ih rest (some info) st3 st' e h hI3 hE
                      exact ⟨hI, fun x hx => hM x (hM3 x (mono1 x hx))⟩
          case _ hpk =>
            split at h
            case _ hpac =>
              cases h
              refine ⟨SyncInv.ofRecordSearch hInv _, fun y hy => ?_⟩
              rw [recordSearch_skip]
              exact hy
            case _ lines2 hpac =>
              split at h
              case _ efe2 hfe2 =>
                cases h
                cases first_enabled_candidate_err env lines2 _ hfe2
                simp [isNoneOrSysCall] at hE
              case _ cand2 hfe2 =>
                split at h
                case _ st4 e4 hrec2 =>
                  cases h
                  obtain ⟨hI, hM⟩ := ih [cand2.2] Option.none
                    (recordSearch st (parseSpec raw).1) st' (some e4) hrec2
                    (SyncInv.ofRecordSearch hInv _) hE
                  rw [recordSearch_skip] at hM
                  exact ⟨hI, hM⟩
                case _ st4 hrec2 =>
                  obtain ⟨hI4, hM4⟩ := ih [cand2.2] Option.none
                    (recordSearch st (parseSpec raw).1) st4 Option.none hrec2
                    (SyncInv.ofRecordSearch hInv _) rfl
                  rw [recordSearch_skip] at hM4
                  split at h
                  case _ info2 hf2 =>
                    obtain ⟨hI, hM⟩ := ih rest (some info2) (recordSearch st4 cand2.2) st' e h
                      (SyncInv.ofRecordSearch hI4 _) hE
                    rw [recordSearch_skip] at hM
                    exact ⟨hI, fun y hy => hM y (hM4 y hy)⟩
                  case _ hf2 =>
                    cases h
                    simp [isNoneOrSysCall] at hE
                  case _ hf2 =>
                    cases h
                    simp [isNoneOrSysCall] at hE
              case _ hfe2 =>
                cases h
                simp [isNoneOrSysCall] at hE

/-- C4 (amended): within one resolution run every package name is
*downloaded* at most once — for any environment, fuel, spec list and
starting state satisfying the run invariant (trivially true for the fresh
state of a top-level call), a successful run's download log is
duplicate-free — and the claim's examples hold: resolving `A` under the
dependency cycle `A → B → A` terminates with `A` and `B` each downloaded
exactly once, and resolving `[A, A]` performs exactly one search and one
download for `A`.  The original claim's "searched at most once" half fails
on the `pkgfile` fallback path (see the counterexample theorem). -/
theorem claim_C4_amended_download_at_most_once :
    (∀ (env : SyncEnv) (fuel : Nat) (pkgs : List Str) (li : Option PackageInfo)
       (st st' : SyncState) (e : Option AppError),
       sync_packages env fuel pkgs li st = (st', e) → e = Option.none →
       st.downloads.Nodup → (∀ p, p ∈ st.downloads → p ∈ st.skip) →
       st'.downloads.Nodup) ∧
    ((sync_packages envAB 10 [strA] Option.none initState).2 = Option.none ∧
      (sync_packages envAB 10 [strA] Option.none initState).1.downloads = [strA, strB]) ∧
    ((sync_packages envA 10 [strA, strA] Option.none initState).2 = Option.none ∧
      (sync_packages envA 10 [strA, strA] Option.none initState).1.downloads = [strA] ∧
      (sync_packages envA 10 [strA, strA] Option.none initState).1.searches = [strA]) := by
  refine ⟨?_, by decide, by decide⟩
  intro env fuel pkgs li st st' e h he h1 h2
  subst he
  exact (sync_packages_inv env fuel pkgs li st st' Option.none h ⟨h1, h2⟩ rfl).1.1

theorem claim_C4_amended_witness :
    (sync_packages envAB 10 [strA] Option.none initState).1.downloads.Nodup := by
  exact claim_C4_amended_download_at_most_once.1 envAB 10 [strA] Option.none initState
    (sync_packages envAB 10 [strA] Option.none initState).1
    (sync_packages envAB 10 [strA] Option.none initState).2 rfl (by decide) (by decide)
    (fun p hp => absurd hp (by simp [initState]))

/-- The first failing `repo-add` invocation of the rebuild loop crashes the
run: if every earlier artifact's builder run exited 0 and `pkg`'s run exits
with a non-zero `code`, the loop stops with the `NameError` raised by the
unbound `RepositoryError` at packages.py line 296. -/
theorem update_repo_loop_fails (env : DbEnv) (databasePath repo : Str) :
    ∀ (pre : List Str) (pkg : Str) (rest : List Str) (code : Int) (output : Str),
    (∀ q, q ∈ pre → (env.run (repoAddCmd databasePath repo q)).1 = 0) →
    env.run (repoAddCmd databasePath repo pkg) = (code, output) →
    code ≠ 0 →
    update_repo_loop env databasePath repo (pre ++ pkg :: rest) =
      .error .nameError := by
  intro pre
  induction pre with
  | nil =>
    intro pkg rest code output hpre hrun hc
    rw [List.nil_append, update_repo_loop, hrun]
    simp [hc]
  | cons q qs ih =>
    intro pkg rest code output hpre hrun hc
    rw [List.cons_append, update_repo_loop]
    rw [if_neg (by simpa using hpre q (by simp))]
    exact ih pkg rest code output (fun r hr => hpre r (by simp [hr])) hrun hc

/-- C6: the escalation the claim describes cannot happen.  packages.py line
11 imports only `PackageError` and `SysCallError`, so `RepositoryError` is
an unbound name in that module and the handler at lines 295-296 raises
`NameError` instead of a `RepositoryError` carrying the builder's exit code
and output excerpt: for any rebuild whose first failing artifact's builder
run exits with a code outside the accepted set `(0, 256)`, `update_repo_db`
crashes with `NameError`, which is a different member of the error taxonomy
than the (spec-modelled) `RepositoryError` the claim requires. -/
theorem claim_C6_escalation_is_unbound_name :
    (∀ (env : DbEnv) (repo path arch : Str) (pre : List Str) (pkg : Str)
       (rest : List Str) (code : Int) (output : Str),
      env.glob (database_path_of path repo arch ++ ("/*.pkg.tar.xz").toList) ++
          env.glob (database_path_of path repo arch ++ ("/*.pkg.tar.zst").toList) =
        pre ++ pkg :: rest →
      (∀ q, q ∈ pre →
        (env.run (repoAddCmd (database_path_of path repo arch) repo q)).1 = 0) →
      env.run (repoAddCmd (database_path_of path repo arch) repo pkg) = (code, output) →
      code ≠ 0 → code ≠ 256 →
      update_repo_db env repo path arch = .error .nameError) ∧
    (∀ m c x, AppError.nameError ≠ AppError.repositoryError m c x) ∧
    (∀ m c x m2, AppError.repositoryError m c x ≠ AppError.packageError m2) ∧
    (∀ m c x c2 k2 x2,
      AppError.repositoryError m c x ≠ AppError.sysCallError c2 k2 x2) := by
  refine ⟨?_, by intros; simp, by intros; simp, by intros; simp⟩
  intro env repo path arch pre pkg rest code output hglob hpre hrun hc _hc256
  rw [update_repo_db, hglob]
  exact update_repo_loop_fails env _ repo pre pkg rest code output hpre hrun hc

/-- A database environment whose single artifact's `repo-add` run exits 2. -/
def dbEnvFail : DbEnv where
  glob := fun pat =>
    if pat = database_path_of ("/srv/repo").toList strCore ("x86_64").toList ++
        ("/*.pkg.tar.xz").toList
    then [("A-1.pkg.tar.xz").toList] else []
  run := fun _ => (2, ("boom output").toList)

theorem claim_C6_witness :
    update_repo_db dbEnvFail strCore ("/srv/repo").toList ("x86_64").toList =
      .error .nameError := by
  exact claim_C6_escalation_is_unbound_name.1 dbEnvFail strCore ("/srv/repo").toList
    ("x86_64").toList [] (("A-1.pkg.tar.xz").toList) [] 2 (("boom output").toList)
    (by decide) (fun q hq => absurd hq (by simp)) rfl (by decide) (by decide)

/-- C7: exiting a scoped session raises `SysCallError` exactly on a
non-zero final exit code — carrying the exit code and the first 100
characters of the decoded trace log — raises nothing when the final exit
code is zero, and the child descriptor is closed before either outcome
(workers.py lines 146-163, the close precedes the raise). -/
theorem claim_C7_scoped_exit (s : WorkerState) :
    (∀ c : Int, s.exitCode = some c → c ≠ 0 →
      (worker_exit s).2 = some (.sysCallError (List.intercalate (" ").toList s.cmd)
        (some c) (s.traceLog.take 100))) ∧
    (s.exitCode = some 0 → (worker_exit s).2 = Option.none) ∧
    (∀ fd : Int, s.childFd = some fd → fd ≠ 0 → (worker_exit s).1 = true) := by
  refine ⟨?_, ?_, ?_⟩
  · intro c hc hne
    have hx : s.exitCode ≠ some 0 := by
      rw [hc]
      simp [hne]
    simp [worker_exit, hx, hc, hne]
  · intro hc
    simp [worker_exit, hc]
  · intro fd hfd hne
    rw [worker_exit]
    simp only [hfd]
    split <;> simp [hne]

/-- A finished failing session: exit code 1, some trace output, open fd 5. -/
def wFail : WorkerState :=
  ⟨[("repo-add").toList], some 1, ("boom").toList, 0, some 5, true⟩

/-- A finished successful session: exit code 0. -/
def wOk : WorkerState :=
  ⟨[("repo-add").toList], some 0, ("fine").toList, 0, some 5, true⟩

theorem claim_C7_witness :
    (worker_exit wFail).2 = some (.sysCallError
      (List.intercalate (" ").toList wFail.cmd) (some 1) (wFail.traceLog.take 100)) ∧
    (worker_exit wOk).2 = Option.none ∧
    (worker_exit wFail).1 = true := by
  exact ⟨(claim_C7_scoped_exit wFail).1 1 rfl (by decide),
    (claim_C7_scoped_exit wOk).2.1 rfl,
    (claim_C7_scoped_exit wFail).2.2 5 rfl (by decide)⟩

/-- The directory scan of `locate_binary` computes exactly the
first-match-wins characterisation: the first search-path directory whose own
file listing contains `name` yields the joined path, and exhaustion is
`RequirementError`. -/
theorem locate_binary_loop_eq_spec (fs : FileSystem) (name : Str) :
    ∀ dirs : List Str,
    locate_binary_loop fs name dirs =
      (match dirs.findSome? (fun dir =>
          match fs.dirs dir with
          | some files =>
            if name ∈ files then some (pyPathJoin dir name) else Option.none
          | Option.none => Option.none) with
       | some p => .ok p
       | Option.none => .error (.requirementError name)) := by
  intro dirs
  induction dirs with
  | nil => rfl
  | cons dir rest ih =>
    rw [locate_binary_loop, List.findSome?_cons]
    split
    case _ hdir =>
      rw [hdir]
      exact ih
    case _ files hdir =>
      rw [hdir]
      split
      case _ f hfind =>
        have hf : f = name := by
          have := List.find?_some hfind
          simpa using this
        subst hf
        have hmem := List.mem_of_find?_eq_some hfind
        simp [hmem]
      case _ hfind =>
        have hnot : name ∉ files := by
          intro hmem
          have := List.find?_eq_none.mp hfind name hmem
          simp at this
        simp [hnot, ih]

/-- `locate_binary` equals its first-match-wins specification. -/
theorem locate_binary_eq_spec (fs : FileSystem) (pathVar name : Str) :
    locate_binary fs pathVar name =
      (match locate_binary_spec fs pathVar name with
       | some p => .ok p
       | Option.none => .error (.requirementError name)) :=
  locate_binary_loop_eq_spec fs name (splitOnL (":").toList pathVar)

/-- C8: when `argv[0]` is neither absolute (`/`-prefixed) nor explicitly
relative (`./`-prefixed), the worker resolves it by scanning the directories
of the inherited search path in order — non-recursively, the first directory
containing the name winning with the path joined onto that directory — and
raises `RequirementError` when no directory contains it (workers.py lines
73-77, helpers.py lines 8-16). -/
theorem claim_C8_argv0_resolution (fs : FileSystem) (pathVar c : Str)
    (rest : List Str) (h1 : c ≠ []) (h2 : ¬ ("/").toList.isPrefixOf c)
    (h3 : ¬ ("./").toList.isPrefixOf c) :
    resolve_argv0 fs pathVar (c :: rest) =
      (match locate_binary_spec fs pathVar c with
       | some p => .ok (p :: rest)
       | Option.none => .error (.requirementError c)) := by
  match c, h1 with
  | ch :: ctail, _ =>
    have hch : ch ≠ '/' := by
      intro hcontra
      exact h2 (by simp [hcontra, List.isPrefixOf])
    have hpre : (("./").toList.isPrefixOf (ch :: ctail)) = false :=
      Bool.eq_false_iff.mpr h3
    simp only [resolve_argv0, hch, hpre, ne_eq, not_false_eq_true,
      Bool.not_false, Bool.and_true, decide_eq_true_eq, if_true, decide_not]
    rw [locate_binary_eq_spec]
    rcases hspec : locate_binary_spec fs pathVar (ch :: ctail) with _ | p <;>
      simp [hspec]

/-- A search path `/bin:/usr/bin` where both directories exist, only
`/usr/bin` contains `repo-add`, and nothing contains `missing`. -/
def fsDemo : FileSystem where
  dirs := fun d =>
    if d = ("/bin").toList then some [("ls").toList]
    else if d = ("/usr/bin").toList then some [("repo-add").toList]
    else Option.none

theorem claim_C8_witness :
    resolve_argv0 fsDemo ("/bin:/usr/bin").toList [("repo-add").toList] =
      .ok [("/usr/bin/repo-add").toList] ∧
    resolve_argv0 fsDemo ("/bin:/usr/bin").toList [("missing").toList] =
      .error (.requirementError ("missing").toList) := by
  constructor
  · rw [claim_C8_argv0_resolution fsDemo ("/bin:/usr/bin").toList
      ("repo-add").toList [] (by decide) (by decide) (by decide)]
    rfl
  · rw [claim_C8_argv0_resolution fsDemo ("/bin:/usr/bin").toList
      ("missing").toList [] (by decide) (by decide) (by decide)]
    rfl

/-- A successful substring search returns an in-range index at which the
needle actually occurs. -/
theorem findSub_spec (key : Str) :
    ∀ (l : Str) (i : Nat), findSub key l = some i →
      i + key.length ≤ l.length ∧ (l.drop i).take key.length = key := by
  intro l
  induction l with
  | nil =>
    intro i h
    rw [findSub] at h
    split at h
    case isTrue hk =>
      cases h
      simp_all [List.isEmpty_iff]
    case isFalse hk => cases h
  | cons c rest ih =>
    intro i h
    rw [findSub] at h
    split at h
    case isTrue hk =>
      cases h
      have hpre : key <+: c :: rest := by
        exact List.isPrefixOf_iff_prefix.mp hk
      obtain ⟨t, ht⟩ := hpre
      constructor
      · simp [← ht]
      · rw [List.drop_zero, ← ht, List.take_left]
    case isFalse hk =>
      match hrec : findSub key rest with
      | Option.none => rw [hrec] at h; cases h
      | some j =>
        rw [hrec] at h
        cases h
        obtain ⟨hlen, hseg⟩ := ih j hrec
        constructor
        · simp only [List.length_cons]
          omega
        · simpa using hseg

/-- A running session before any output. -/
def wBase : WorkerState :=
  ⟨[("tail").toList], Option.none, [], 0, some 5, true⟩

/-- The session after a `poll` appended output containing one `done`. -/
def wDone : WorkerState := appendOutput wBase ("processing... done!").toList

/-- C9: `contains` scans only from the read cursor forward and, on a match,
moves the cursor to just past the matched bytes (it never moves backward,
and never past the end when the cursor was in range; on a miss the state is
unchanged); consequently in the concrete session whose `poll` appended
`"processing... done!"`, a first `contains(b"done")` returns `True` and a
second call with no new data returns `False` without moving the cursor. -/
theorem claim_C9_contains_monotonic :
    (∀ (s : WorkerState) (key : Str) (b : Bool) (s' : WorkerState),
      worker_contains s key = (b, s') →
      (b = false → s' = s) ∧
      (b = true →
        s.traceLogPos ≤ s'.traceLogPos ∧
        ∃ i, s'.traceLogPos = s.traceLogPos + i + key.length ∧
          (s.traceLog.drop (s.traceLogPos + i)).take key.length = key) ∧
      (b = true → s.traceLogPos ≤ s.traceLog.length →
        s'.traceLogPos ≤ s.traceLog.length)) ∧
    ((worker_contains wDone ("done").toList).1 = true ∧
      (worker_contains (worker_contains wDone ("done").toList).2 ("done").toList).1 = false ∧
      (worker_contains (worker_contains wDone ("done").toList).2 ("done").toList).2 =
        (worker_contains wDone ("done").toList).2) := by
  refine ⟨?_, ⟨by decide, by decide, by decide⟩⟩
  intro s key b s' h
  rw [worker_contains] at h
  split at h
  case _ i hfind =>
    cases h
    obtain ⟨hlen, hseg⟩ := findSub_spec key _ i hfind
    rw [List.length_drop] at hlen
    refine ⟨?_, ?_, ?_⟩
    · intro hb
      cases hb
    · intro _
      refine ⟨?_, i, rfl, ?_⟩
      · show s.traceLogPos ≤ s.traceLogPos + i + key.length
        omega
      · show (s.traceLog.drop (s.traceLogPos + i)).take key.length = key
        rw [List.drop_drop] at hseg
        exact hseg
    · intro _ hin
      show s.traceLogPos + i + key.length ≤ s.traceLog.length
      omega
  case _ hfind =>
    cases h
    refine ⟨?_, ?_, ?_⟩
    · intro _
      rfl
    · intro hb
      cases hb
    · intro hb
      cases hb

theorem claim_C9_witness :
    (worker_contains wDone ("nope").toList).2 = wDone ∧
    wDone.traceLogPos ≤ (worker_contains wDone ("done").toList).2.traceLogPos := by
  constructor
  · exact (claim_C9_contains_monotonic.1 wDone ("nope").toList
      (worker_contains wDone ("nope").toList).1
      (worker_contains wDone ("nope").toList).2 rfl).1 (by decide)
  · exact ((claim_C9_contains_monotonic.1 wDone ("done").toList
      (worker_contains wDone ("done").toList).1
      (worker_contains wDone ("done").toList).2 rfl).2.1 (by decide)).1
